import Mathlib

/-!
# Verification of the CS538 experiment-matrix pipeline

Shallow embedding of the two scripts of the repository:

* `ns-3/scratch/run_matrix.py` — the live experiment orchestrator
  (parameter-matrix enumeration, `run_experiment`, `extract_stats`,
  `write_manifest`, `main`);
* `ns-3/scratch/generate_manifest.py` — the rescan manifest generator
  (`parse_config`, `parse_summary`, `main`).

Python strings are modelled as `List Char`; the Python string operations the
scripts use (`in`, `split`, `strip`, `int(...)`, `int(float(...))`) are
modelled by the `py*` functions below.  Fallible operations return `Option`;
a Python exception is an `Except.error`.  File access is modelled by passing
the file's content as `Option (List Char)` (`none` = the file cannot be
opened).
-/

namespace CS538

/-! ## Python string primitives -/

/-- Python whitespace characters stripped by `str.strip()` (the ASCII ones;
the artifacts contain no exotic whitespace). -/
def pyWs (c : Char) : Bool :=
  c == ' ' || c == '\t' || c == '\n' || c == '\r' || c == '\x0b' || c == '\x0c'

/-- `isPre n h` : the list `n` is a prefix of `h` (Bool-valued). -/
def isPre : List Char → List Char → Bool
  | [], _ => true
  | _ :: _, [] => false
  | a :: as, b :: bs => a == b && isPre as bs

/-- Python's substring test `n in h`. -/
def pyIn (n : List Char) : List Char → Bool
  | [] => isPre n []
  | c :: t => isPre n (c :: t) || pyIn n t

/-- `str.strip()`: remove leading and trailing whitespace. -/
def pyStrip (l : List Char) : List Char :=
  ((l.dropWhile pyWs).reverse.dropWhile pyWs).reverse

/-- Prepend a character to the first piece of a split result. -/
def consHead (x : Char) : List (List Char) → List (List Char)
  | [] => [[x]]
  | p :: ps => (x :: p) :: ps

/-- Python `s.split(sep)` for a one-character separator `sep`: every
occurrence splits, empty pieces are kept, the result has one more piece than
there are separators. -/
def pySplitCh (c : Char) : List Char → List (List Char)
  | [] => [[]]
  | x :: t => if x == c then [] :: pySplitCh c t else consHead x (pySplitCh c t)

/-- Index of the first occurrence of `sep` as a contiguous sublist. -/
def findSub (sep : List Char) : List Char → Option Nat
  | [] => if sep.isEmpty then some 0 else none
  | c :: cs => if isPre sep (c :: cs) then some 0 else (findSub sep cs).map (· + 1)

/-- Fuel-driven worker for `pySplitStr`; `fuel = l.length` always suffices
because each recursive call consumes at least one character. -/
def splitGo (sep : List Char) : Nat → List Char → List (List Char)
  | 0, l => [l]
  | fuel + 1, l =>
    match findSub sep l with
    | none => [l]
    | some i => l.take i :: splitGo sep fuel (l.drop (i + sep.length))

/-- Python `s.split(sep)` for a multi-character separator: non-overlapping
left-to-right occurrences split the string.  (Python raises on an empty
separator; the scripts never pass one, and we return `[l]` there.) -/
def pySplitStr (sep l : List Char) : List (List Char) :=
  if sep.isEmpty then [l] else splitGo sep (l.length + 1) l

/-- Numeric value of a digit string. -/
def digitsVal (l : List Char) : Nat :=
  l.foldl (fun a c => 10 * a + (c.toNat - 48)) 0

/-- `some (digitsVal l)` when `l` is a nonempty all-digit string. -/
def digitsNat (l : List Char) : Option Nat :=
  if l.isEmpty then none else if l.all Char.isDigit then some (digitsVal l) else none

/-- Python `int(s)`: strip, optional sign, then digits only; anything else
raises (`none`). -/
def pyInt (l : List Char) : Option Int :=
  match pyStrip l with
  | [] => none
  | c :: r =>
    if c == '-' then (digitsNat r).map (fun v => -(v : Int))
    else if c == '+' then (digitsNat r).map (fun v => (v : Int))
    else (digitsNat (c :: r)).map (fun v => (v : Int))

/-- Integer part of a plain decimal digit string `digits[.digits]`
(truncation toward zero of the nonnegative value). -/
def floatTrunc (l : List Char) : Option Nat :=
  let ip := l.takeWhile Char.isDigit
  match l.drop ip.length with
  | [] => if ip.isEmpty then none else some (digitsVal ip)
  | '.' :: fp =>
    if (ip.isEmpty && fp.isEmpty) || !(fp.all Char.isDigit) then none
    else some (digitsVal ip)
  | _ => none

/-- Python `int(float(s))` for the plain decimal strings the summary artifact
format specifies (`p50: 1234.0` and the like): strip, optional sign, then
truncate the decimal toward zero.  (Exact for these inputs; the scripts apply
it to nothing else.) -/
def pyIntFloat (l : List Char) : Option Int :=
  match pyStrip l with
  | [] => none
  | c :: r =>
    if c == '-' then (floatTrunc r).map (fun v => -(v : Int))
    else if c == '+' then (floatTrunc r).map (fun v => (v : Int))
    else (floatTrunc (c :: r)).map (fun v => (v : Int))

/-! ## The summary parser (`extract_stats` / `parse_summary`)

Both scripts contain the same parsing body (`run_matrix.extract_stats`
lines 131–162, `generate_manifest.parse_summary` lines 17–44): a first pass
over the lines looks for `Completed:`, a second pass maintains the
`in_ns_section` flag and parses `p50:`/`p95:`/`p99:` lines inside it.
`run_matrix` wraps the body in `try/except` (returning whatever fields were
already assigned); `generate_manifest` does not, so an exception propagates
to its caller. -/

/-- The four fields the summary parser assembles, all initialised to `0`. -/
structure Stat where
  p50 : Int
  p95 : Int
  p99 : Int
  completed : Int
deriving DecidableEq, Repr

def completedLbl : List Char := "Completed:".data
def nsHdr : List Char := "Latency (ns):".data
def usHdr : List Char := "Latency (μs):".data
def p50Lbl : List Char := "p50:".data
def p95Lbl : List Char := "p95:".data
def p99Lbl : List Char := "p99:".data

/-- `int(line.split(':')[1].strip().split('/')[0])` — the expression of the
`Completed:` branch; `none` models the exception any of its steps raises. -/
def completedParse (l : List Char) : Option Int :=
  match (pySplitCh ':' l)[1]? with
  | none => none
  | some seg =>
    match (pySplitCh '/' (pyStrip seg))[0]? with
    | none => none
    | some piece => pyInt piece

/-- First pass of the parsing body: assign `completed` on every line
containing `Completed:`.  An exception (`.error`) carries the field values
assigned so far. -/
def completedLoop : List (List Char) → Stat → Except Stat Stat
  | [], st => .ok st
  | l :: ls, st =>
    if pyIn completedLbl l then
      match completedParse l with
      | none => .error st
      | some n => completedLoop ls { st with completed := n }
    else completedLoop ls st

/-- `int(float(line.split(':')[1].strip()))` — shared by the three
percentile branches of the second pass. -/
def parseStatVal (l : List Char) : Option Int :=
  match (pySplitCh ':' l)[1]? with
  | none => none
  | some seg => pyIntFloat (pyStrip seg)

/-- Second pass of the parsing body: the `in_ns_section` flag is set by the
`Latency (ns):` header, cleared by the `Latency (μs):` header, and while set
the `p50:`/`p95:`/`p99:` lines are parsed. -/
def latencyLoop : List (List Char) → Bool → Stat → Except Stat Stat
  | [], _, st => .ok st
  | l :: ls, inNs, st =>
    if pyIn nsHdr l then latencyLoop ls true st
    else if pyIn usHdr l then latencyLoop ls false st
    else if inNs then
      if pyIn p50Lbl l then
        match parseStatVal l with
        | none => .error st
        | some v => latencyLoop ls inNs { st with p50 := v }
      else if pyIn p95Lbl l then
        match parseStatVal l with
        | none => .error st
        | some v => latencyLoop ls inNs { st with p95 := v }
      else if pyIn p99Lbl l then
        match parseStatVal l with
        | none => .error st
        | some v => latencyLoop ls inNs { st with p99 := v }
      else latencyLoop ls inNs st
    else latencyLoop ls inNs st

/-- The shared parsing body applied to a file content: split on newlines,
run the `Completed:` pass, then the latency pass.  `.error st` means a Python
exception was raised with the fields of `st` already assigned. -/
def extractStatsE (content : List Char) : Except Stat Stat :=
  match completedLoop (pySplitCh '\n' content) ⟨0, 0, 0, 0⟩ with
  | .error st => .error st
  | .ok st => latencyLoop (pySplitCh '\n' content) false st

/-- `run_matrix.extract_stats` (lines 131–162): the body runs inside
`try/except`, so an unopenable file yields the initial zeros and a parse
exception yields whatever fields were assigned before it. -/
def extract_stats (file : Option (List Char)) : Stat :=
  match file with
  | none => ⟨0, 0, 0, 0⟩
  | some content =>
    match extractStatsE content with
    | .ok st => st
    | .error st => st

/-- `generate_manifest.parse_summary` (lines 17–44): the same body with no
`try/except` — an unopenable file or a parse exception propagates to the
caller. -/
def parse_summary (file : Option (List Char)) : Except Unit Stat :=
  match file with
  | none => .error ()
  | some content =>
    match extractStatsE content with
    | .ok st => .ok st
    | .error _ => .error ()

/-! ## Parameter matrix (`run_matrix.py` lines 29–45, 197–221) -/

def LINK_RATE : String := "10Gbps"

def LINK_DELAY : String := "50us"

def MTU : Int := 1500

def QDISC : String := "none"

def WORKLOADS : List String := ["pingpong", "rpc"]

def OUTSTANDING : List Int := [1, 8, 32]

def SIZES : List (Int × Int) := [(256, 256), (1024, 1024), (4096, 4096)]

/-- One parameter set of the matrix: the three varying dimensions plus the
fixed network parameters (spec §3, `run_matrix.py` lines 29–42). -/
structure ParameterSet where
  workload : String
  outstanding : Int
  reqBytes : Int
  rspBytes : Int
  linkRate : String
  linkDelay : String
  mtu : Int
  qdisc : String
deriving DecidableEq, Repr

def mkParamSet (w : String) (o : Int) (s : Int × Int) : ParameterSet :=
  ⟨w, o, s.1, s.2, LINK_RATE, LINK_DELAY, MTU, QDISC⟩

/-- The triple-nested loop of `main` (lines 212–214): workload outermost,
then outstanding, then size, each list in declaration order. -/
def paramMatrix (ws : List String) (os : List Int) (ss : List (Int × Int)) :
    List ParameterSet :=
  ws.flatMap fun w => os.flatMap fun o => ss.map fun s => mkParamSet w o s

/-- `total_runs = len(WORKLOADS) * len(OUTSTANDING) * len(SIZES)` (line 198),
computed and printed before the loop starts. -/
def total_runs (ws : List String) (os : List Int) (ss : List (Int × Int)) : Nat :=
  ws.length * os.length * ss.length

/-! ## Live mode (`run_matrix.run_experiment` and `main`) -/

def runIdMarker : List Char := "Run ID:".data

def resMarker : List Char := "Results written to:".data

/-- `line.split(marker)[1].strip()` — the trailing content extracted after a
marker (the `[1]` piece exists whenever the marker occurs in the line). -/
def markerVal (m l : List Char) : List Char :=
  pyStrip ((pySplitStr m l)[1]?.getD [])

/-- One step of the stdout scan (lines 85–89): a line containing `Run ID:`
updates the run id; otherwise (`elif`) a line containing
`Results written to:` updates the output path. -/
def scanStep (st : Option (List Char) × Option (List Char)) (l : List Char) :
    Option (List Char) × Option (List Char) :=
  if pyIn runIdMarker l then (some (markerVal runIdMarker l), st.2)
  else if pyIn resMarker l then (st.1, some (markerVal resMarker l))
  else st

/-- The whole stdout scan: both values start as `None` and each matching line
overwrites the previous assignment. -/
def scanStdout (lines : List (List Char)) : Option (List Char) × Option (List Char) :=
  lines.foldl scanStep (none, none)

/-- Python truthiness test used by `if not run_id or not out_path`:
`None` and the empty string are falsy. -/
def falsy : Option (List Char) → Bool
  | none => true
  | some s => s.isEmpty

/-- Outcome of one engine invocation: a non-zero exit status
(`CalledProcessError`), or a zero exit with the captured stdout lines, the
content of `<out_path>/summary.txt` (`none` = unreadable/absent), and the
formatted elapsed wall-clock time. -/
inductive EngineOutcome where
  | fail
  | ok (stdoutLines : List (List Char)) (summaryFile : Option (List Char)) (elapsed : String)

def OUT_DIR : String := "out/sim"

/-- The result dict built on a successful run (lines 106–122). -/
def liveRow (p : ParameterSet) (runId : String) (st : Stat) (outPath : String)
    (elapsed : String) : List (String × String) :=
  [("run_id", runId), ("workload", p.workload), ("outstanding", toString p.outstanding),
   ("req_bytes", toString p.reqBytes), ("rsp_bytes", toString p.rspBytes),
   ("linkRate", p.linkRate), ("linkDelay", p.linkDelay), ("mtu", toString p.mtu),
   ("qdisc", p.qdisc), ("p50_ns", toString st.p50), ("p95_ns", toString st.p95),
   ("p99_ns", toString st.p99), ("completed", toString st.completed),
   ("out_dir", outPath), ("elapsed_s", elapsed)]

/-- `run_matrix.run_experiment` (lines 47–129): `None` on a non-zero exit
status; on a zero exit, scan stdout for the two markers, return `None` with a
warning when either extracted value is `None`/empty, and otherwise build the
result dict, parsing the summary artifact with `extract_stats`. -/
def run_experiment (p : ParameterSet) (oc : EngineOutcome) : Option (List (String × String)) :=
  match oc with
  | .fail => none
  | .ok stdoutLines summaryFile elapsed =>
    let rid := (scanStdout stdoutLines).1
    let opath := (scanStdout stdoutLines).2
    if falsy rid || falsy opath then none
    else
      some (liveRow p (String.mk (rid.getD [])) (extract_stats summaryFile)
        (String.mk (opath.getD [])) elapsed)

/-- The accumulation loop of `main` (lines 209–221): run every parameter set
in order, keeping the rows of the successful runs. -/
def liveResults (ps : List ParameterSet) (eng : ParameterSet → EngineOutcome) :
    List (List (String × String)) :=
  ps.filterMap fun p => run_experiment p (eng p)

/-- The fixed column schema of `run_matrix.write_manifest` (lines 168–184). -/
def liveFieldnames : List String :=
  ["run_id", "workload", "outstanding", "req_bytes", "rsp_bytes", "linkRate",
   "linkDelay", "mtu", "qdisc", "p50_ns", "p95_ns", "p99_ns", "completed",
   "elapsed_s", "out_dir"]

/-- `csv.DictWriter` cell for one column: the dict's value, or the default
`''` when the key is absent (`restval`). -/
def renderCell (row : List (String × String)) (f : String) : String :=
  (row.lookup f).getD ""

def renderCells (fields : List String) (row : List (String × String)) : List String :=
  fields.map (renderCell row)

/-- One CSV line.  The produced values never contain commas, quotes or
newlines, so `QUOTE_MINIMAL` quoting never fires and a plain comma join is
exact. -/
def csvLine (cells : List String) : String :=
  String.intercalate "," cells

/-- The manifest `write_manifest` produces: header row then one row per
result, in input order.  `main` only calls it when `results` is nonempty
(line 224), hence the `Option`. -/
def liveManifest (results : List (List (String × String))) : Option (List String) :=
  if results.isEmpty then none
  else some (csvLine liveFieldnames :: results.map fun r => csvLine (renderCells liveFieldnames r))

/-- Process exit status of `run_matrix.main`: `sys.exit(1)` when no run
succeeded (lines 244–246), normal termination (0) otherwise. -/
def liveExitCode (results : List (List (String × String))) : Nat :=
  if results.isEmpty then 1 else 0

/-! ## Rescan mode (`generate_manifest.py`) -/

/-- The parsed `config.json` record with the keys `main` reads
(lines 72–80). -/
structure RunConfig where
  runId : String
  workload : String
  outstanding : Int
  reqBytes : Int
  rspBytes : Int
  linkRate : String
  linkDelay : String
  mtu : Int
  qdisc : String
deriving DecidableEq, Repr

instance : DecidableEq (Except Unit RunConfig) := fun x y =>
  match x, y with
  | .error a, .error b => isTrue (by cases a; cases b; rfl)
  | .error _, .ok _ => isFalse nofun
  | .ok _, .error _ => isFalse nofun
  | .ok a, .ok b =>
    if h : a = b then isTrue (by rw [h]) else isFalse (by intro hh; cases hh; exact h rfl)

/-- One entry of the result-root directory listing: its name, whether it is a
directory, the `config.json` artifact (`none` = absent,
`some (.error ())` = present but `json.load`/key lookup raises,
`some (.ok rc)` = parses to `rc`), and the `summary.txt` content
(`none` = absent). -/
structure FsEntry where
  name : String
  isDir : Bool
  config : Option (Except Unit RunConfig)
  summary : Option (List Char)
deriving DecidableEq

def OUT_DIR_RESCAN : String := "../out/sim"

/-- Code-point lexicographic order on character lists — the order Python's
string comparison (and hence `sorted`) uses. -/
def charListLe : List Char → List Char → Bool
  | [], _ => true
  | _ :: _, [] => false
  | a :: as, b :: bs =>
    if a.toNat < b.toNat then true
    else if b.toNat < a.toNat then false
    else charListLe as bs

def strLe (a b : String) : Bool := charListLe a.data b.data

/-- Stable insertion step for sorting by name. -/
def insertSorted (le : FsEntry → FsEntry → Bool) (a : FsEntry) : List FsEntry → List FsEntry
  | [] => [a]
  | b :: bs => if le a b then a :: b :: bs else b :: insertSorted le a bs

/-- `sorted(os.listdir(OUT_DIR))` (line 50): stable sort of the listing in
lexicographic (code-point) name order. -/
def sortedByName (fs : List FsEntry) : List FsEntry :=
  fs.foldr (insertSorted fun a b => strLe a.name b.name) []

/-- Concrete run directories used as test fixtures: three complete ones and
one (`r3`) missing its summary artifact. -/
def fixEntry1 : FsEntry :=
  ⟨"r1", true, some (.ok ⟨"r1", "pingpong", 1, 256, 256, "10Gbps", "50us", 1500, "none"⟩),
    some "".data⟩

def fixEntry2 : FsEntry :=
  ⟨"r2", true, some (.ok ⟨"r2", "pingpong", 8, 1024, 1024, "10Gbps", "50us", 1500, "none"⟩),
    some "".data⟩

def fixEntry3 : FsEntry :=
  ⟨"r3", true, some (.ok ⟨"r3", "rpc", 8, 1024, 1024, "10Gbps", "50us", 1500, "none"⟩),
    none⟩

def fixEntry4 : FsEntry :=
  ⟨"r4", true, some (.ok ⟨"r4", "rpc", 32, 4096, 4096, "10Gbps", "50us", 1500, "none"⟩),
    some "".data⟩

/-- The result dict built for one rescanned directory (lines 71–86). -/
def rescanRow (rc : RunConfig) (st : Stat) (name : String) : List (String × String) :=
  [("run_id", rc.runId), ("workload", rc.workload), ("outstanding", toString rc.outstanding),
   ("req_bytes", toString rc.reqBytes), ("rsp_bytes", toString rc.rspBytes),
   ("linkRate", rc.linkRate), ("linkDelay", rc.linkDelay), ("mtu", toString rc.mtu),
   ("qdisc", rc.qdisc), ("p50_ns", toString st.p50), ("p95_ns", toString st.p95),
   ("p99_ns", toString st.p99), ("completed", toString st.completed),
   ("out_dir", OUT_DIR_RESCAN ++ "/" ++ name)]

/-- The per-directory body of `generate_manifest.main` (lines 50–91): skip
non-directories; skip when `config.json` or `summary.txt` is absent
("missing files"); skip when `parse_config` or `parse_summary` raises
("Error processing"); otherwise build the row. -/
def processEntry (e : FsEntry) : Option (List (String × String)) :=
  if !e.isDir then none
  else
    match e.config, e.summary with
    | some cfgFile, some summaryFile =>
      match cfgFile with
      | .error _ => none
      | .ok rc =>
        match extractStatsE summaryFile with
        | .error _ => none
        | .ok st => some (rescanRow rc st e.name)
    | _, _ => none

/-- The rows `generate_manifest.main` accumulates: directory listing in
sorted name order, one row per successfully processed entry. -/
def rescan (fs : List FsEntry) : List (List (String × String)) :=
  (sortedByName fs).filterMap processEntry

/-- The fixed column schema of `generate_manifest.main` (lines 96–111) —
note: no `elapsed_s` column. -/
def rescanFieldnames : List String :=
  ["run_id", "workload", "outstanding", "req_bytes", "rsp_bytes", "linkRate",
   "linkDelay", "mtu", "qdisc", "p50_ns", "p95_ns", "p99_ns", "completed",
   "out_dir"]

/-- The manifest rescan mode writes (lines 113–116): always written, header
row then one row per result. -/
def rescanManifest (fs : List FsEntry) : List String :=
  csvLine rescanFieldnames :: (rescan fs).map fun r => csvLine (renderCells rescanFieldnames r)

/-- Process exit status of `generate_manifest.main`: the function returns
normally in every modelled run — the script contains no `sys.exit` — so the
process exits 0. -/
def rescanExitCode (fs : List FsEntry) : Nat :=
  let _ := rescan fs
  0

/-! ## Summary-artifact templates for the parametric parser claims -/

/-- A nonempty all-digit string — the shape of each numeric payload of a
well-formed summary artifact. -/
def digitsOk (d : List Char) : Prop :=
  d ≠ [] ∧ ∀ c ∈ d, c.isDigit = true

instance (d : List Char) : Decidable (digitsOk d) := by
  unfold digitsOk
  infer_instance

/-- `Completed: <dc>/<dt>` -/
def completedLine (dc dt : List Char) : List Char :=
  completedLbl ++ ' ' :: dc ++ '/' :: dt

/-- `  <lbl> <d>.0` — a percentile line of the nanosecond section. -/
def pLine (lbl d : List Char) : List Char :=
  ' ' :: ' ' :: lbl ++ ' ' :: d ++ ".0".data

/-- Join lines with newlines (inverse of the parser's `split('\n')`). -/
def joinLines : List (List Char) → List Char
  | [] => []
  | [l] => l
  | l :: ls => l ++ '\n' :: joinLines ls

/-- The C3 artifact family: valid `Completed:`, `p50:` and `p95:` lines, a
nanosecond section with no `p99` line, and a following microsecond section
(whose own `p99` line must not be picked up). -/
def c3lines (dc dt d50 d95 : List Char) : List (List Char) :=
  [completedLine dc dt, nsHdr, pLine p50Lbl d50, pLine p95Lbl d95, usHdr, "  p99: 7.5".data]

def c3content (dc dt d50 d95 : List Char) : List Char :=
  joinLines (c3lines dc dt d50 d95)

/-- The C4 artifact family: a valid `Completed:` line followed by a
nanosecond `p50:` line whose value is not a number, so that
`int(float(...))` raises after `completed` was already assigned. -/
def c4lines (dc dt : List Char) : List (List Char) :=
  [completedLine dc dt, nsHdr, "  p50: abc".data]

def c4content (dc dt : List Char) : List Char :=
  joinLines (c4lines dc dt)

def badContent : List Char :=
  c4content "9000".data "10000".data

/-- The concrete summary artifact of the C2 test vector. -/
def c2content : List Char :=
  ("Completed: 9000/10000\nLatency (ns):\n  p50: 1234.0\n  p95: 5678.0\n" ++
    "  p99: 9999.0\nLatency (μs):\n  p50: 1.2\n  p95: 5.7\n  p99: 10.0").data

/-! ## Character-class facts -/

theorem beq_false_of_isDigit {c x : Char} (hc : c.isDigit = true)
    (hx : x.isDigit = false) : (c == x) = false := by
  cases h : c == x with
  | true => rw [beq_iff_eq] at h; subst h; rw [hc] at hx; cases hx
  | false => rfl

theorem beq_false_of_isDigit' {c x : Char} (hc : c.isDigit = true)
    (hx : x.isDigit = false) : (x == c) = false := by
  cases h : x == c with
  | true => rw [beq_iff_eq] at h; subst h; rw [hc] at hx; cases hx
  | false => rfl

theorem pyWs_false_of_isDigit {c : Char} (hc : c.isDigit = true) : pyWs c = false := by
  unfold pyWs
  rw [beq_false_of_isDigit hc (by decide), beq_false_of_isDigit hc (by decide),
    beq_false_of_isDigit hc (by decide), beq_false_of_isDigit hc (by decide),
    beq_false_of_isDigit hc (by decide), beq_false_of_isDigit hc (by decide)]
  rfl

/-! ## `pyIn` lemmas -/

theorem isPre_append_self (n t : List Char) : isPre n (n ++ t) = true := by
  induction n with
  | nil => rfl
  | cons a as ih => simp [isPre, ih]

theorem pyIn_of_isPre {n h : List Char} (hp : isPre n h = true) : pyIn n h = true := by
  cases h with
  | nil => exact hp
  | cons c t => simp [pyIn, hp]

/-- Skipping an all-digit block: a needle starting with a non-digit cannot
begin inside it. -/
theorem pyIn_digits_skip {n : List Char} {a : Char} (hn : n.head? = some a)
    (ha : a.isDigit = false) {d : List Char} (hd : ∀ c ∈ d, c.isDigit = true)
    (s : List Char) : pyIn n (d ++ s) = pyIn n s := by
  obtain ⟨as, rfl⟩ : ∃ as, n = a :: as := by
    cases n with
    | nil => cases hn
    | cons x xs => cases hn; exact ⟨xs, rfl⟩
  induction d with
  | nil => rfl
  | cons c t ih =>
    have hc : c.isDigit = true := hd c (by simp)
    have hpre : ∀ r : List Char, isPre (a :: as) (c :: r) = false := fun r => by
      simp [isPre, beq_false_of_isDigit' hc ha]
    rw [List.cons_append]
    rw [show pyIn (a :: as) (c :: (t ++ s)) =
      (isPre (a :: as) (c :: (t ++ s)) || pyIn (a :: as) (t ++ s)) from rfl]
    rw [hpre, Bool.false_or]
    exact ih fun x hx => hd x (by simp [hx])

/-- An all-digit string does not contain a needle starting with a
non-digit. -/
theorem pyIn_digits_false {n : List Char} {a : Char} (hn : n.head? = some a)
    (ha : a.isDigit = false) {d : List Char} (hd : ∀ c ∈ d, c.isDigit = true) :
    pyIn n d = false := by
  obtain ⟨as, rfl⟩ : ∃ as, n = a :: as := by
    cases n with
    | nil => cases hn
    | cons x xs => cases hn; exact ⟨xs, rfl⟩
  induction d with
  | nil => rfl
  | cons c t ih =>
    have hc : c.isDigit = true := hd c (by simp)
    have hpre : ∀ r : List Char, isPre (a :: as) (c :: r) = false := fun r => by
      simp [isPre, beq_false_of_isDigit' hc ha]
    rw [show pyIn (a :: as) (c :: t) =
      (isPre (a :: as) (c :: t) || pyIn (a :: as) t) from rfl]
    rw [hpre, Bool.false_or]
    exact ih fun x hx => hd x (by simp [hx])

/-- `clash n cs`: matching `n` against `cs` hits a mismatch before `cs` runs
out, so `n` is not a prefix of `cs ++ t` for any `t`. -/
def clash : List Char → List Char → Bool
  | [], _ => false
  | _ :: _, [] => false
  | a :: as, b :: bs => if a == b then clash as bs else true

/-- `chompOk n cs`: no occurrence of `n` can start inside `cs`, whatever
follows `cs`. -/
def chompOk (n : List Char) : List Char → Bool
  | [] => true
  | c :: t => clash n (c :: t) && chompOk n t

theorem isPre_false_of_clash {n cs : List Char} (h : clash n cs = true) (t : List Char) :
    isPre n (cs ++ t) = false := by
  induction n generalizing cs with
  | nil => cases cs <;> simp [clash] at h
  | cons a as ih =>
    cases cs with
    | nil => simp [clash] at h
    | cons b bs =>
      rw [List.cons_append]
      rw [show isPre (a :: as) (b :: (bs ++ t)) = ((a == b) && isPre as (bs ++ t)) from rfl]
      by_cases hab : (a == b) = true
      · rw [show clash (a :: as) (b :: bs) = (if a == b then clash as bs else true) from rfl,
          hab] at h
        simp only [if_true] at h
        rw [hab, ih h, Bool.and_false]
      · rw [Bool.eq_false_iff.mpr hab, Bool.false_and]

/-- Chomp a concrete prefix off a `pyIn` search when the needle cannot start
inside it. -/
theorem pyIn_chomp (n : List Char) {cs : List Char} (h : chompOk n cs = true)
    (t : List Char) : pyIn n (cs ++ t) = pyIn n t := by
  induction cs with
  | nil => rfl
  | cons c cs' ih =>
    rw [show chompOk n (c :: cs') = (clash n (c :: cs') && chompOk n cs') from rfl,
      Bool.and_eq_true] at h
    rw [List.cons_append]
    rw [show pyIn n (c :: (cs' ++ t)) = (isPre n (c :: (cs' ++ t)) || pyIn n (cs' ++ t)) from rfl]
    have hp := @isPre_false_of_clash n (c :: cs') h.1 t
    rw [List.cons_append] at hp
    rw [hp, Bool.false_or]
    exact ih h.2

/-! ## `pyStrip` lemmas -/

theorem pyStrip_cons_ws {c : Char} (hc : pyWs c = true) (l : List Char) :
    pyStrip (c :: l) = pyStrip l := by
  unfold pyStrip
  rw [List.dropWhile_cons, hc]
  simp

theorem pyStrip_eq_self {l : List Char}
    (h1 : ∀ c, l.head? = some c → pyWs c = false)
    (h2 : ∀ c, l.getLast? = some c → pyWs c = false) : pyStrip l = l := by
  cases l with
  | nil => rfl
  | cons c t =>
    unfold pyStrip
    rw [List.dropWhile_cons, h1 c rfl]
    simp only [Bool.false_eq_true, if_false]
    obtain ⟨d, r, hd⟩ : ∃ d r, (c :: t).reverse = d :: r := by
      cases h : (c :: t).reverse with
      | nil =>
        rw [List.reverse_eq_nil_iff] at h
        exact absurd h (by simp)
      | cons d r => exact ⟨d, r, rfl⟩
    have hdl : (c :: t).getLast? = some d := by
      rw [← List.head?_reverse, hd]; rfl
    rw [hd, List.dropWhile_cons, h2 d hdl]
    simp only [Bool.false_eq_true, if_false]
    rw [← hd, List.reverse_reverse]

/-! ## `pySplitCh` lemmas -/

theorem pySplitCh_of_not_mem {c : Char} {l : List Char}
    (h : ∀ x ∈ l, (x == c) = false) : pySplitCh c l = [l] := by
  induction l with
  | nil => rfl
  | cons x t ih =>
    have hx : (x == c) = false := h x (by simp)
    have ht : pySplitCh c t = [t] := ih fun y hy => h y (by simp [hy])
    rw [show pySplitCh c (x :: t) =
      (if x == c then [] :: pySplitCh c t else consHead x (pySplitCh c t)) from rfl]
    rw [hx]
    simp only [Bool.false_eq_true, if_false]
    rw [ht]
    rfl

theorem pySplitCh_append {c : Char} {a : List Char}
    (h : ∀ x ∈ a, (x == c) = false) (b : List Char) :
    pySplitCh c (a ++ c :: b) = a :: pySplitCh c b := by
  induction a with
  | nil => simp [pySplitCh]
  | cons x t ih =>
    have hx : (x == c) = false := h x (by simp)
    have ht := ih fun y hy => h y (by simp [hy])
    rw [List.cons_append]
    rw [show pySplitCh c (x :: (t ++ c :: b)) =
      (if x == c then [] :: pySplitCh c (t ++ c :: b)
       else consHead x (pySplitCh c (t ++ c :: b))) from rfl]
    rw [hx]
    simp only [Bool.false_eq_true, if_false]
    rw [ht]
    rfl

theorem pySplitCh_joinLines {lines : List (List Char)} (hne : lines ≠ [])
    (h : ∀ l ∈ lines, ∀ x ∈ l, (x == '\n') = false) :
    pySplitCh '\n' (joinLines lines) = lines := by
  induction lines with
  | nil => exact absurd rfl hne
  | cons l ls ih =>
    cases ls with
    | nil => exact pySplitCh_of_not_mem (h l (by simp))
    | cons l2 ls2 =>
      have hstep : joinLines (l :: l2 :: ls2) = l ++ '\n' :: joinLines (l2 :: ls2) := rfl
      rw [hstep, pySplitCh_append (h l (by simp)),
        ih (by simp) fun m hm => h m (by simp [hm])]

/-! ## `pyInt` / `pyIntFloat` lemmas -/

theorem pyInt_digits {d : List Char} (hd : digitsOk d) :
    pyInt d = some ((digitsVal d : Nat) : Int) := by
  obtain ⟨hne, hdig⟩ := hd
  obtain ⟨c, t, rfl⟩ := List.exists_cons_of_ne_nil hne
  have hc : c.isDigit = true := hdig c (by simp)
  have hstrip : pyStrip (c :: t) = c :: t := by
    apply pyStrip_eq_self
    · intro x hx
      cases hx
      exact pyWs_false_of_isDigit hc
    · intro x hx
      exact pyWs_false_of_isDigit (hdig x (List.mem_of_mem_getLast? hx))
  have hstep : pyInt (c :: t) =
      (if c == '-' then (digitsNat t).map (fun v => -(v : Int))
       else if c == '+' then (digitsNat t).map (fun v => (v : Int))
       else (digitsNat (c :: t)).map (fun v => (v : Int))) := by
    unfold pyInt
    rw [hstrip]
  rw [hstep, beq_false_of_isDigit (x := '-') hc (by decide),
    beq_false_of_isDigit (x := '+') hc (by decide)]
  simp only [Bool.false_eq_true, if_false]
  unfold digitsNat
  rw [List.all_eq_true.mpr hdig]
  simp

theorem takeWhile_digits_append {d : List Char} (hd : ∀ c ∈ d, c.isDigit = true)
    (r : List Char) : (d ++ '.' :: r).takeWhile Char.isDigit = d := by
  induction d with
  | nil => simp [List.takeWhile_cons]
  | cons c t ih =>
    have hc := hd c (by simp)
    simp only [List.cons_append, List.takeWhile_cons, hc, if_true]
    rw [ih fun x hx => hd x (by simp [hx])]

theorem floatTrunc_dot0 {d : List Char} (hd : ∀ c ∈ d, c.isDigit = true) :
    floatTrunc (d ++ ".0".data) = some (digitsVal d) := by
  unfold floatTrunc
  have h1 : (d ++ ".0".data).takeWhile Char.isDigit = d := takeWhile_digits_append hd ['0']
  simp only [h1, List.drop_left]
  simp

theorem pyStrip_digits_dot0 {d : List Char} (hd : digitsOk d) :
    pyStrip (d ++ ".0".data) = d ++ ".0".data := by
  obtain ⟨hne, hdig⟩ := hd
  obtain ⟨c, t, rfl⟩ := List.exists_cons_of_ne_nil hne
  apply pyStrip_eq_self
  · intro x hx
    simp only [List.cons_append, List.head?_cons, Option.some.injEq] at hx
    subst hx
    exact pyWs_false_of_isDigit (hdig c (by simp))
  · intro x hx
    rw [List.getLast?_append_of_ne_nil _ (by decide)] at hx
    have h0 : '0' = x := by simpa using hx
    subst h0
    decide

theorem pyIntFloat_dot0 {d : List Char} (hd : digitsOk d) :
    pyIntFloat (d ++ ".0".data) = some ((digitsVal d : Nat) : Int) := by
  have hstrip := pyStrip_digits_dot0 hd
  obtain ⟨hne, hdig⟩ := hd
  obtain ⟨c, t, rfl⟩ := List.exists_cons_of_ne_nil hne
  have hc : c.isDigit = true := hdig c (by simp)
  have hstep : pyIntFloat ((c :: t) ++ ".0".data) =
      (if c == '-' then (floatTrunc (t ++ ".0".data)).map (fun v => -(v : Int))
       else if c == '+' then (floatTrunc (t ++ ".0".data)).map (fun v => (v : Int))
       else (floatTrunc ((c :: t) ++ ".0".data)).map (fun v => (v : Int))) := by
    unfold pyIntFloat
    rw [hstrip]
    rfl
  rw [hstep, beq_false_of_isDigit (x := '-') hc (by decide),
    beq_false_of_isDigit (x := '+') hc (by decide)]
  simp only [Bool.false_eq_true, if_false]
  rw [floatTrunc_dot0 (d := c :: t) hdig]
  rfl

/-! ## Facts about the template lines -/

theorem cLine_in (dc dt : List Char) : pyIn completedLbl (completedLine dc dt) = true := by
  unfold completedLine
  exact pyIn_of_isPre (isPre_append_self _ _)

/-- A needle starting with a non-digit that cannot start inside
`"Completed: "` or at the `'/'` does not occur in a `Completed:` line. -/
theorem cLine_no {n : List Char} {a : Char} (hn : n.head? = some a)
    (ha : a.isDigit = false) (hch : chompOk n "Completed: ".data = true)
    (hsl : chompOk n ['/'] = true) {dc dt : List Char}
    (hdc : ∀ c ∈ dc, c.isDigit = true) (hdt : ∀ c ∈ dt, c.isDigit = true) :
    pyIn n (completedLine dc dt) = false := by
  rw [show completedLine dc dt = "Completed: ".data ++ (dc ++ ('/' :: dt)) from rfl]
  rw [pyIn_chomp n hch]
  rw [pyIn_digits_skip hn ha hdc]
  rw [show ('/' :: dt : List Char) = ['/'] ++ dt from rfl]
  rw [pyIn_chomp n hsl]
  exact pyIn_digits_false hn ha hdt

theorem pLine_self (lbl : List Char) (h : chompOk lbl [' ', ' '] = true) (d : List Char) :
    pyIn lbl (pLine lbl d) = true := by
  rw [show pLine lbl d = [' ', ' '] ++ (lbl ++ (' ' :: (d ++ ".0".data))) from by
    unfold pLine; simp]
  rw [pyIn_chomp lbl h]
  exact pyIn_of_isPre (isPre_append_self _ _)

theorem pLine_no {n : List Char} {a : Char} (hn : n.head? = some a)
    (ha : a.isDigit = false) (lbl : List Char)
    (hch : chompOk n ([' ', ' '] ++ lbl ++ [' ']) = true)
    (htail : pyIn n ".0".data = false) {d : List Char}
    (hd : ∀ c ∈ d, c.isDigit = true) : pyIn n (pLine lbl d) = false := by
  rw [show pLine lbl d = ([' ', ' '] ++ lbl ++ [' ']) ++ (d ++ ".0".data) from by
    unfold pLine; simp]
  rw [pyIn_chomp n hch]
  rw [pyIn_digits_skip hn ha hd]
  exact htail

theorem cLine_split {dc dt : List Char} (hdc : ∀ c ∈ dc, c.isDigit = true)
    (hdt : ∀ c ∈ dt, c.isDigit = true) :
    pySplitCh ':' (completedLine dc dt) = ["Completed".data, ' ' :: (dc ++ '/' :: dt)] := by
  rw [show completedLine dc dt = "Completed".data ++ ':' :: (' ' :: (dc ++ '/' :: dt)) from rfl]
  rw [pySplitCh_append (by decide)]
  rw [pySplitCh_of_not_mem]
  intro x hx
  rcases List.mem_cons.mp hx with h | h
  · subst h; decide
  · rcases List.mem_append.mp h with h | h
    · exact beq_false_of_isDigit (hdc x h) (by decide)
    · rcases List.mem_cons.mp h with h | h
      · subst h; decide
      · exact beq_false_of_isDigit (hdt x h) (by decide)

theorem strip_sp_tail {dc dt : List Char} (hdc : digitsOk dc) (hdt : digitsOk dt) :
    pyStrip (' ' :: (dc ++ '/' :: dt)) = dc ++ '/' :: dt := by
  rw [pyStrip_cons_ws (by decide)]
  apply pyStrip_eq_self
  · intro x hx
    obtain ⟨c, t, rfl⟩ := List.exists_cons_of_ne_nil hdc.1
    simp only [List.cons_append, List.head?_cons, Option.some.injEq] at hx
    subst hx
    exact pyWs_false_of_isDigit (hdc.2 c (by simp))
  · intro x hx
    rw [List.getLast?_append_cons] at hx
    obtain ⟨d0, dt', rfl⟩ := List.exists_cons_of_ne_nil hdt.1
    rw [List.getLast?_cons_cons] at hx
    exact pyWs_false_of_isDigit (hdt.2 x (List.mem_of_mem_getLast? hx))

theorem slash_split {dc dt : List Char} (hdc : ∀ c ∈ dc, c.isDigit = true)
    (hdt : ∀ c ∈ dt, c.isDigit = true) :
    pySplitCh '/' (dc ++ '/' :: dt) = [dc, dt] := by
  rw [pySplitCh_append fun x hx => beq_false_of_isDigit (hdc x hx) (by decide)]
  rw [pySplitCh_of_not_mem fun x hx => beq_false_of_isDigit (hdt x hx) (by decide)]

/-- The `Completed:` branch extracts the numerator of `<dc>/<dt>`. -/
theorem completedParse_cLine {dc dt : List Char} (hdc : digitsOk dc) (hdt : digitsOk dt) :
    completedParse (completedLine dc dt) = some ((digitsVal dc : Nat) : Int) := by
  unfold completedParse
  rw [cLine_split hdc.2 hdt.2]
  show (match (pySplitCh '/' (pyStrip (' ' :: (dc ++ '/' :: dt))))[0]? with
        | none => none
        | some piece => pyInt piece) = some ((digitsVal dc : Nat) : Int)
  rw [strip_sp_tail hdc hdt, slash_split hdc.2 hdt.2]
  show pyInt dc = some ((digitsVal dc : Nat) : Int)
  exact pyInt_digits hdc

/-- A percentile branch extracts the truncated decimal of `  <lbl> <d>.0`. -/
theorem parseStatVal_pLine (lblBody : List Char)
    (hlbl : ∀ x ∈ lblBody, (x == ':') = false) {d : List Char} (hd : digitsOk d) :
    parseStatVal (pLine (lblBody ++ [':']) d) = some ((digitsVal d : Nat) : Int) := by
  have hshape : pLine (lblBody ++ [':']) d =
      (' ' :: ' ' :: lblBody) ++ ':' :: (' ' :: (d ++ ".0".data)) := by
    unfold pLine
    simp
  have hsplit : pySplitCh ':' (pLine (lblBody ++ [':']) d) =
      [' ' :: ' ' :: lblBody, ' ' :: (d ++ ".0".data)] := by
    rw [hshape]
    rw [pySplitCh_append]
    · rw [pySplitCh_of_not_mem]
      intro x hx
      rcases List.mem_cons.mp hx with h | h
      · subst h; decide
      · rcases List.mem_append.mp h with h | h
        · exact beq_false_of_isDigit (hd.2 x h) (by decide)
        · have : x = '.' ∨ x = '0' := by simpa using h
          rcases this with h | h <;> (subst h; decide)
    · intro x hx
      rcases List.mem_cons.mp hx with h | h
      · subst h; decide
      · rcases List.mem_cons.mp h with h | h
        · subst h; decide
        · exact hlbl x h
  unfold parseStatVal
  rw [hsplit]
  show pyIntFloat (pyStrip (' ' :: (d ++ ".0".data))) = some ((digitsVal d : Nat) : Int)
  rw [pyStrip_cons_ws (by decide), pyStrip_digits_dot0 hd]
  exact pyIntFloat_dot0 hd

/-- No newline occurs in a `Completed:` template line. -/
theorem no_nl_cLine {dc dt : List Char} (hdc : ∀ c ∈ dc, c.isDigit = true)
    (hdt : ∀ c ∈ dt, c.isDigit = true) :
    ∀ x ∈ completedLine dc dt, (x == '\n') = false := by
  intro x hx
  unfold completedLine at hx
  rcases List.mem_append.mp hx with h | h
  · rcases List.mem_append.mp h with h | h
    · exact (by decide : ∀ x ∈ completedLbl, (x == '\n') = false) x h
    · rcases List.mem_cons.mp h with h | h
      · subst h; decide
      · exact beq_false_of_isDigit (hdc x h) (by decide)
  · rcases List.mem_cons.mp h with h | h
    · subst h; decide
    · exact beq_false_of_isDigit (hdt x h) (by decide)

/-- No newline occurs in a percentile template line. -/
theorem no_nl_pLine (lbl : List Char) (hlbl : ∀ x ∈ lbl, (x == '\n') = false)
    {d : List Char} (hd : ∀ c ∈ d, c.isDigit = true) :
    ∀ x ∈ pLine lbl d, (x == '\n') = false := by
  intro x hx
  unfold pLine at hx
  rcases List.mem_append.mp hx with h | h
  · rcases List.mem_append.mp h with h | h
    · rcases List.mem_cons.mp h with h | h
      · subst h; decide
      · rcases List.mem_cons.mp h with h | h
        · subst h; decide
        · exact hlbl x h
    · rcases List.mem_cons.mp h with h | h
      · subst h; decide
      · exact beq_false_of_isDigit (hd x h) (by decide)
  · have : x = '.' ∨ x = '0' := by simpa using h
    rcases this with h | h <;> (subst h; decide)

/-! ## Loop-stepping lemmas -/

theorem completedLoop_cons_set {l : List Char} {ls : List (List Char)} {st : Stat} {n : Int}
    (hin : pyIn completedLbl l = true) (hp : completedParse l = some n) :
    completedLoop (l :: ls) st = completedLoop ls { st with completed := n } := by
  rw [show completedLoop (l :: ls) st =
    (if pyIn completedLbl l then
      match completedParse l with
      | none => Except.error st
      | some n => completedLoop ls { st with completed := n }
    else completedLoop ls st) from rfl]
  rw [hin, if_pos rfl, hp]

theorem completedLoop_cons_skip {l : List Char} {ls : List (List Char)} {st : Stat}
    (hin : pyIn completedLbl l = false) :
    completedLoop (l :: ls) st = completedLoop ls st := by
  rw [show completedLoop (l :: ls) st =
    (if pyIn completedLbl l then
      match completedParse l with
      | none => Except.error st
      | some n => completedLoop ls { st with completed := n }
    else completedLoop ls st) from rfl]
  rw [hin, if_neg (by decide)]

theorem latencyLoop_step (l : List Char) (ls : List (List Char)) (inNs : Bool) (st : Stat) :
    latencyLoop (l :: ls) inNs st =
    (if pyIn nsHdr l then latencyLoop ls true st
     else if pyIn usHdr l then latencyLoop ls false st
     else if inNs then
       if pyIn p50Lbl l then
         match parseStatVal l with
         | none => Except.error st
         | some v => latencyLoop ls inNs { st with p50 := v }
       else if pyIn p95Lbl l then
         match parseStatVal l with
         | none => Except.error st
         | some v => latencyLoop ls inNs { st with p95 := v }
       else if pyIn p99Lbl l then
         match parseStatVal l with
         | none => Except.error st
         | some v => latencyLoop ls inNs { st with p99 := v }
       else latencyLoop ls inNs st
     else latencyLoop ls inNs st) := rfl

theorem latencyLoop_ns {l : List Char} (hns : pyIn nsHdr l = true)
    (ls : List (List Char)) (inNs : Bool) (st : Stat) :
    latencyLoop (l :: ls) inNs st = latencyLoop ls true st := by
  rw [latencyLoop_step, hns, if_pos rfl]

theorem latencyLoop_us {l : List Char} (hns : pyIn nsHdr l = false)
    (hus : pyIn usHdr l = true) (ls : List (List Char)) (inNs : Bool) (st : Stat) :
    latencyLoop (l :: ls) inNs st = latencyLoop ls false st := by
  rw [latencyLoop_step, hns, if_neg (by decide), hus, if_pos rfl]

theorem latencyLoop_skipOut {l : List Char} (hns : pyIn nsHdr l = false)
    (hus : pyIn usHdr l = false) (ls : List (List Char)) (st : Stat) :
    latencyLoop (l :: ls) false st = latencyLoop ls false st := by
  rw [latencyLoop_step, hns, if_neg (by decide), hus, if_neg (by decide),
    if_neg (by decide)]

theorem latencyLoop_p50 {l : List Char} (hns : pyIn nsHdr l = false)
    (hus : pyIn usHdr l = false) (h50 : pyIn p50Lbl l = true) {v : Int}
    (hv : parseStatVal l = some v) (ls : List (List Char)) (st : Stat) :
    latencyLoop (l :: ls) true st = latencyLoop ls true { st with p50 := v } := by
  rw [latencyLoop_step, hns, if_neg (by decide), hus, if_neg (by decide),
    if_pos rfl, h50, if_pos rfl, hv]

theorem latencyLoop_p95 {l : List Char} (hns : pyIn nsHdr l = false)
    (hus : pyIn usHdr l = false) (h50 : pyIn p50Lbl l = false)
    (h95 : pyIn p95Lbl l = true) {v : Int} (hv : parseStatVal l = some v)
    (ls : List (List Char)) (st : Stat) :
    latencyLoop (l :: ls) true st = latencyLoop ls true { st with p95 := v } := by
  rw [latencyLoop_step, hns, if_neg (by decide), hus, if_neg (by decide),
    if_pos rfl, h50, if_neg (by decide), h95, if_pos rfl, hv]

theorem latencyLoop_p50_err {l : List Char} (hns : pyIn nsHdr l = false)
    (hus : pyIn usHdr l = false) (h50 : pyIn p50Lbl l = true)
    (hv : parseStatVal l = none) (ls : List (List Char)) (st : Stat) :
    latencyLoop (l :: ls) true st = .error st := by
  rw [latencyLoop_step, hns, if_neg (by decide), hus, if_neg (by decide),
    if_pos rfl, h50, if_pos rfl, hv]

/-! ## The parser on the parametric artifact templates -/

theorem c3_split (dc dt d50 d95 : List Char) (hdc : digitsOk dc) (hdt : digitsOk dt)
    (h50 : digitsOk d50) (h95 : digitsOk d95) :
    pySplitCh '\n' (c3content dc dt d50 d95) = c3lines dc dt d50 d95 := by
  apply pySplitCh_joinLines (by simp [c3lines])
  intro l hl
  simp only [c3lines, List.mem_cons, List.not_mem_nil, or_false] at hl
  rcases hl with rfl | rfl | rfl | rfl | rfl | rfl
  · exact no_nl_cLine hdc.2 hdt.2
  · decide
  · exact no_nl_pLine p50Lbl (by decide) h50.2
  · exact no_nl_pLine p95Lbl (by decide) h95.2
  · decide
  · decide

theorem c3_completedLoop (dc dt d50 d95 : List Char) (hdc : digitsOk dc) (hdt : digitsOk dt)
    (h50 : digitsOk d50) (h95 : digitsOk d95) :
    completedLoop (c3lines dc dt d50 d95) ⟨0, 0, 0, 0⟩ =
      .ok ⟨0, 0, 0, (digitsVal dc : Nat)⟩ := by
  show completedLoop
    [completedLine dc dt, nsHdr, pLine p50Lbl d50, pLine p95Lbl d95, usHdr,
      "  p99: 7.5".data] ⟨0, 0, 0, 0⟩ = _
  rw [completedLoop_cons_set (cLine_in dc dt) (completedParse_cLine hdc hdt)]
  rw [completedLoop_cons_skip (by decide)]
  rw [completedLoop_cons_skip
    (pLine_no (n := completedLbl) (a := 'C') rfl (by decide) p50Lbl (by decide) (by decide) h50.2)]
  rw [completedLoop_cons_skip
    (pLine_no (n := completedLbl) (a := 'C') rfl (by decide) p95Lbl (by decide) (by decide) h95.2)]
  rw [completedLoop_cons_skip (by decide), completedLoop_cons_skip (by decide)]
  rfl

theorem c3_latencyLoop (dc dt d50 d95 : List Char) (hdc : digitsOk dc) (hdt : digitsOk dt)
    (h50 : digitsOk d50) (h95 : digitsOk d95) :
    latencyLoop (c3lines dc dt d50 d95) false ⟨0, 0, 0, (digitsVal dc : Nat)⟩ =
      .ok ⟨(digitsVal d50 : Nat), (digitsVal d95 : Nat), 0, (digitsVal dc : Nat)⟩ := by
  have hv50 : parseStatVal (pLine p50Lbl d50) = some ((digitsVal d50 : Nat) : Int) :=
    parseStatVal_pLine "p50".data (by decide) h50
  have hv95 : parseStatVal (pLine p95Lbl d95) = some ((digitsVal d95 : Nat) : Int) :=
    parseStatVal_pLine "p95".data (by decide) h95
  show latencyLoop
    [completedLine dc dt, nsHdr, pLine p50Lbl d50, pLine p95Lbl d95, usHdr,
      "  p99: 7.5".data] false _ = _
  rw [latencyLoop_skipOut
    (cLine_no (n := nsHdr) (a := 'L') rfl (by decide) (by decide) (by decide) hdc.2 hdt.2)
    (cLine_no (n := usHdr) (a := 'L') rfl (by decide) (by decide) (by decide) hdc.2 hdt.2)]
  rw [latencyLoop_ns (by decide)]
  rw [latencyLoop_p50
    (pLine_no (n := nsHdr) (a := 'L') rfl (by decide) p50Lbl (by decide) (by decide) h50.2)
    (pLine_no (n := usHdr) (a := 'L') rfl (by decide) p50Lbl (by decide) (by decide) h50.2)
    (pLine_self p50Lbl (by decide) d50) hv50]
  rw [latencyLoop_p95
    (pLine_no (n := nsHdr) (a := 'L') rfl (by decide) p95Lbl (by decide) (by decide) h95.2)
    (pLine_no (n := usHdr) (a := 'L') rfl (by decide) p95Lbl (by decide) (by decide) h95.2)
    (pLine_no (n := p50Lbl) (a := 'p') rfl (by decide) p95Lbl (by decide) (by decide) h95.2)
    (pLine_self p95Lbl (by decide) d95) hv95]
  rw [latencyLoop_us (by decide) (by decide)]
  rw [latencyLoop_skipOut (by decide) (by decide)]
  rfl

theorem c3_extractStatsE (dc dt d50 d95 : List Char) (hdc : digitsOk dc) (hdt : digitsOk dt)
    (h50 : digitsOk d50) (h95 : digitsOk d95) :
    extractStatsE (c3content dc dt d50 d95) =
      .ok ⟨(digitsVal d50 : Nat), (digitsVal d95 : Nat), 0, (digitsVal dc : Nat)⟩ := by
  unfold extractStatsE
  simp only [c3_split dc dt d50 d95 hdc hdt h50 h95]
  simp only [c3_completedLoop dc dt d50 d95 hdc hdt h50 h95]
  show latencyLoop (c3lines dc dt d50 d95) false ⟨0, 0, 0, (digitsVal dc : Nat)⟩ = _
  exact c3_latencyLoop dc dt d50 d95 hdc hdt h50 h95

theorem c4_split (dc dt : List Char) (hdc : digitsOk dc) (hdt : digitsOk dt) :
    pySplitCh '\n' (c4content dc dt) = c4lines dc dt := by
  apply pySplitCh_joinLines (by simp [c4lines])
  intro l hl
  simp only [c4lines, List.mem_cons, List.not_mem_nil, or_false] at hl
  rcases hl with rfl | rfl | rfl
  · exact no_nl_cLine hdc.2 hdt.2
  · decide
  · decide

theorem c4_extractStatsE (dc dt : List Char) (hdc : digitsOk dc) (hdt : digitsOk dt) :
    extractStatsE (c4content dc dt) = .error ⟨0, 0, 0, (digitsVal dc : Nat)⟩ := by
  have hcomp : completedLoop (c4lines dc dt) ⟨0, 0, 0, 0⟩ =
      .ok ⟨0, 0, 0, (digitsVal dc : Nat)⟩ := by
    show completedLoop [completedLine dc dt, nsHdr, "  p50: abc".data] ⟨0, 0, 0, 0⟩ = _
    rw [completedLoop_cons_set (cLine_in dc dt) (completedParse_cLine hdc hdt)]
    rw [completedLoop_cons_skip (by decide), completedLoop_cons_skip (by decide)]
    rfl
  have hlat : latencyLoop (c4lines dc dt) false ⟨0, 0, 0, (digitsVal dc : Nat)⟩ =
      .error ⟨0, 0, 0, (digitsVal dc : Nat)⟩ := by
    show latencyLoop [completedLine dc dt, nsHdr, "  p50: abc".data] false _ = _
    rw [latencyLoop_skipOut
      (cLine_no (n := nsHdr) (a := 'L') rfl (by decide) (by decide) (by decide) hdc.2 hdt.2)
      (cLine_no (n := usHdr) (a := 'L') rfl (by decide) (by decide) (by decide) hdc.2 hdt.2)]
    rw [latencyLoop_ns (by decide)]
    rw [latencyLoop_p50_err (by decide) (by decide) (by decide) (by decide)]
  unfold extractStatsE
  simp only [c4_split dc dt hdc hdt]
  simp only [hcomp]
  show latencyLoop (c4lines dc dt) false ⟨0, 0, 0, (digitsVal dc : Nat)⟩ = _
  exact hlat

/-- C2: both parsers extract `(1234, 5678, 9999, 9000)` from the nanosecond
section and the `Completed:` line, truncating the decimals. -/
theorem c2_summary_parser_concrete :
    extract_stats (some c2content) = ⟨1234, 5678, 9999, 9000⟩ ∧
    parse_summary (some c2content) = .ok ⟨1234, 5678, 9999, 9000⟩ := by
  constructor <;> rfl

/-- C3: for every summary artifact of the template family — a valid
`Completed: <dc>/<dt>` line and a nanosecond section with valid `p50:`/`p95:`
lines but no `p99:` line (followed by a microsecond section whose own `p99:`
line is outside the nanosecond section) — both parsers return 0 for the
missing `p99` field and the correctly parsed values for `p50`, `p95` and
`completed`: the unfound field keeps its default 0 and no error is raised. -/
theorem c3_missing_p99_defaults (dc dt d50 d95 : List Char)
    (hdc : digitsOk dc) (hdt : digitsOk dt) (h50 : digitsOk d50) (h95 : digitsOk d95) :
    extract_stats (some (c3content dc dt d50 d95)) =
      ⟨(digitsVal d50 : Nat), (digitsVal d95 : Nat), 0, (digitsVal dc : Nat)⟩ ∧
    parse_summary (some (c3content dc dt d50 d95)) =
      .ok ⟨(digitsVal d50 : Nat), (digitsVal d95 : Nat), 0, (digitsVal dc : Nat)⟩ := by
  have hE := c3_extractStatsE dc dt d50 d95 hdc hdt h50 h95
  constructor
  · show (match extractStatsE (c3content dc dt d50 d95) with
      | .ok st => st
      | .error st => st) = _
    rw [hE]
  · show (match extractStatsE (c3content dc dt d50 d95) with
      | .ok st => Except.ok st
      | .error _ => Except.error ()) = _
    rw [hE]

/-- Witness for C3 at the concrete values (1234, 5678, —, 9000). -/
theorem c3_missing_p99_defaults_witness :
    extract_stats (some (c3content "9000".data "10000".data "1234".data "5678".data)) =
      ⟨1234, 5678, 0, 9000⟩ ∧
    parse_summary (some (c3content "9000".data "10000".data "1234".data "5678".data)) =
      .ok ⟨1234, 5678, 0, 9000⟩ := by
  have h := c3_missing_p99_defaults "9000".data "10000".data "1234".data "5678".data
    (by decide) (by decide) (by decide) (by decide)
  exact ⟨h.1.trans (by decide), h.2.trans (congrArg Except.ok (by decide))⟩

/-- C4 (amended): the live-mode `extract_stats` never raises — an unopenable
artifact yields the all-zero tuple, and a parse exception makes it return the
fields assigned before the exception (here the already-parsed `completed`
count), not the all-zero tuple — while the rescan-mode `parse_summary`
propagates the exception to its caller instead of returning a tuple. -/
theorem c4_amended_lenient (dc dt : List Char) (hdc : digitsOk dc) (hdt : digitsOk dt) :
    extract_stats none = ⟨0, 0, 0, 0⟩ ∧
    extract_stats (some (c4content dc dt)) = ⟨0, 0, 0, (digitsVal dc : Nat)⟩ ∧
    parse_summary none = .error () ∧
    parse_summary (some (c4content dc dt)) = .error () := by
  have hE := c4_extractStatsE dc dt hdc hdt
  refine ⟨rfl, ?_, rfl, ?_⟩
  · show (match extractStatsE (c4content dc dt) with
      | .ok st => st
      | .error st => st) = _
    rw [hE]
  · show (match extractStatsE (c4content dc dt) with
      | .ok st => Except.ok st
      | .error _ => Except.error ()) = _
    rw [hE]

/-- Witness for the amended C4 at the concrete bad artifact. -/
theorem c4_amended_lenient_witness :
    extract_stats (some badContent) = ⟨0, 0, 0, 9000⟩ ∧
    parse_summary (some badContent) = .error () := by
  have h := c4_amended_lenient "9000".data "10000".data (by decide) (by decide)
  exact ⟨h.2.1.trans (by decide), h.2.2.2⟩

/-- C4 counterexample: on the artifact `badContent` the parsing body raises
(`int(float("abc"))`) after the `Completed:` pass already assigned 9000, so
`extract_stats` returns `(0, 0, 0, 9000)` — not the all-zero tuple the claim
states — and the rescan-mode `parse_summary` lets the exception escape
instead of returning a tuple at all. -/
theorem c4_counterexample :
    extractStatsE badContent = .error ⟨0, 0, 0, 9000⟩ ∧
    extract_stats (some badContent) = ⟨0, 0, 0, 9000⟩ ∧
    (⟨0, 0, 0, 9000⟩ : Stat) ≠ ⟨0, 0, 0, 0⟩ ∧
    parse_summary (some badContent) = .error () := by
  refine ⟨rfl, rfl, by decide, rfl⟩

/-! ## C1: the parameter matrix -/

theorem flatMap_const_length {α β : Type} (l : List α) (g : α → List β) (k : Nat)
    (hk : ∀ a ∈ l, (g a).length = k) : (l.flatMap g).length = l.length * k := by
  induction l with
  | nil => simp
  | cons a t ih =>
    rw [show (a :: t).flatMap g = g a ++ t.flatMap g from rfl, List.length_append,
      hk a (by simp), ih (fun x hx => hk x (by simp [hx])), List.length_cons,
      Nat.succ_mul, Nat.add_comm]

theorem innerMatrix_length (w : String) (os : List Int) (ss : List (Int × Int)) :
    (os.flatMap fun o => ss.map fun s => mkParamSet w o s).length =
      os.length * ss.length :=
  flatMap_const_length os _ ss.length (fun _ _ => List.length_map ss _)

/-- Row-major indexing of a `flatMap` whose blocks all have length `k`. -/
theorem flatMap_getElem? {α β : Type} (l : List α) (g : α → List β) (k : Nat)
    (hk : ∀ a ∈ l, (g a).length = k) (i : Nat) :
    (l.flatMap g)[i]? = l[i / k]?.bind fun a => (g a)[i % k]? := by
  induction l generalizing i with
  | nil => simp
  | cons a t ih =>
    have hga : (g a).length = k := hk a (by simp)
    have iht := ih (fun x hx => hk x (by simp [hx]))
    rcases Nat.lt_or_ge i k with hik | hik
    · have hil : i < (g a).length := by rw [hga]; exact hik
      rw [show (a :: t).flatMap g = g a ++ t.flatMap g from rfl,
        List.getElem?_append_left hil, Nat.div_eq_of_lt hik, Nat.mod_eq_of_lt hik]
      simp
    · by_cases hk0 : k = 0
      · subst hk0
        have hnil : ∀ x ∈ a :: t, g x = [] := fun x hx => List.length_eq_zero.mp (hk x hx)
        rw [List.flatMap_eq_nil_iff.mpr hnil, Nat.div_zero]
        simp [hnil a (List.mem_cons_self a t)]
      · have hkpos : 0 < k := Nat.pos_of_ne_zero hk0
        have hlen : (g a).length ≤ i := by rw [hga]; exact hik
        rw [show (a :: t).flatMap g = g a ++ t.flatMap g from rfl,
          List.getElem?_append_right hlen, hga, iht]
        have hmod : (i - k) % k = i % k := (Nat.mod_eq_sub_mod hik).symm
        have hj : i / k = (i - k) / k + 1 := Nat.div_eq_sub_div hkpos hik
        rw [hmod, hj, List.getElem?_cons_succ]

theorem paramMatrix_length (ws : List String) (os : List Int) (ss : List (Int × Int)) :
    (paramMatrix ws os ss).length = total_runs ws os ss := by
  unfold paramMatrix total_runs
  rw [flatMap_const_length ws _ (os.length * ss.length)
    (fun w _ => innerMatrix_length w os ss), Nat.mul_assoc]

/-- The matrix is enumerated in row-major (workload, outstanding, size)
order: entry `i` combines `ws[i / (o·s)]`, `os[(i / s) mod o]` and
`ss[i mod s]`. -/
theorem paramMatrix_getElem? (ws : List String) (os : List Int) (ss : List (Int × Int))
    (i : Nat) :
    (paramMatrix ws os ss)[i]? =
      ws[i / (os.length * ss.length)]?.bind fun w =>
        os[(i / ss.length) % os.length]?.bind fun o =>
          ss[i % ss.length]?.map fun s => mkParamSet w o s := by
  unfold paramMatrix
  rw [flatMap_getElem? _ _ (os.length * ss.length) (fun w _ => innerMatrix_length w os ss)]
  cases hw : ws[i / (os.length * ss.length)]? with
  | none => rfl
  | some w =>
    show (os.flatMap fun o => ss.map fun s => mkParamSet w o s)[i % (os.length * ss.length)]?
      = _
    rw [flatMap_getElem? _ _ ss.length (fun o _ => List.length_map ss _)]
    rw [Nat.mod_mul_left_div_self,
      Nat.mod_mod_of_dvd i (Nat.dvd_mul_left ss.length os.length)]
    simp [List.getElem?_map]

theorem mem_innerMatrix {x : ParameterSet} {w : String} {os : List Int}
    {ss : List (Int × Int)} :
    x ∈ (os.flatMap fun o => ss.map fun s => mkParamSet w o s) ↔
      ∃ o ∈ os, ∃ s ∈ ss, x = mkParamSet w o s := by
  simp only [List.mem_flatMap, List.mem_map]
  constructor
  · rintro ⟨o, ho, s, hs, rfl⟩
    exact ⟨o, ho, s, hs, rfl⟩
  · rintro ⟨o, ho, s, hs, rfl⟩
    exact ⟨o, ho, s, hs, rfl⟩

theorem paramMatrix_nodup (ws : List String) (os : List Int) (ss : List (Int × Int))
    (hw : ws.Nodup) (ho : os.Nodup) (hs : ss.Nodup) : (paramMatrix ws os ss).Nodup := by
  unfold paramMatrix
  rw [List.nodup_flatMap]
  constructor
  · intro w _
    rw [List.nodup_flatMap]
    constructor
    · intro o _
      refine hs.map ?_
      intro s1 s2 h
      exact Prod.ext (congrArg ParameterSet.reqBytes h) (congrArg ParameterSet.rspBytes h)
    · refine List.Pairwise.imp ?_ ho
      intro o1 o2 hne x hx1 hx2
      rw [List.mem_map] at hx1 hx2
      obtain ⟨s1, _, rfl⟩ := hx1
      obtain ⟨s2, _, heq⟩ := hx2
      exact hne (congrArg ParameterSet.outstanding heq).symm
  · refine List.Pairwise.imp ?_ hw
    intro w1 w2 hne x hx1 hx2
    rw [mem_innerMatrix] at hx1 hx2
    obtain ⟨o1, _, s1, _, rfl⟩ := hx1
    obtain ⟨o2, _, s2, _, heq⟩ := hx2
    exact hne (congrArg ParameterSet.workload heq)

/-- C1 counterexample: with a duplicated entry in a dimension list the matrix
still enumerates w·o·s = 2 parameter sets, but they are not pairwise
distinct, so "each distinct and appearing exactly once" fails as universally
stated. -/
theorem c1_counterexample :
    (paramMatrix ["pingpong", "pingpong"] [1] [(256, 256)]).length = 2 ∧
    ¬(paramMatrix ["pingpong", "pingpong"] [1] [(256, 256)]).Nodup := by
  decide

/-- C1 (amended): for every triple of dimension lists the matrix generator
enumerates exactly w·o·s parameter sets — the count `total_runs` computed and
reported before the loop starts — in deterministic row-major nested order
(workload outermost, then outstanding, then size, each in declaration
order); they are pairwise distinct provided each dimension list itself is
duplicate-free, as the declared baseline lists are. -/
theorem c1_amended_matrix (ws : List String) (os : List Int) (ss : List (Int × Int))
    (hw : ws.Nodup) (ho : os.Nodup) (hs : ss.Nodup) :
    (paramMatrix ws os ss).length = total_runs ws os ss ∧
    (∀ i : Nat, (paramMatrix ws os ss)[i]? =
      ws[i / (os.length * ss.length)]?.bind fun w =>
        os[(i / ss.length) % os.length]?.bind fun o =>
          ss[i % ss.length]?.map fun s => mkParamSet w o s) ∧
    (paramMatrix ws os ss).Nodup :=
  ⟨paramMatrix_length ws os ss, paramMatrix_getElem? ws os ss,
    paramMatrix_nodup ws os ss hw ho hs⟩

/-- Witness for the amended C1 on the declared baseline dimension lists. -/
theorem c1_amended_matrix_witness :
    (paramMatrix WORKLOADS OUTSTANDING SIZES).length = total_runs WORKLOADS OUTSTANDING SIZES ∧
    (paramMatrix WORKLOADS OUTSTANDING SIZES).Nodup ∧
    (paramMatrix WORKLOADS OUTSTANDING SIZES)[5]? =
      some (mkParamSet "pingpong" 8 (4096, 4096)) := by
  have h := c1_amended_matrix WORKLOADS OUTSTANDING SIZES (by decide) (by decide) (by decide)
  exact ⟨h.1, h.2.2, (h.2.1 5).trans (by decide)⟩

/-! ## C5/C10: rescan mode -/

theorem filterMap_all_some_length {α β : Type} (f : α → Option β) (l : List α)
    (h : ∀ x ∈ l, (f x).isSome) : (l.filterMap f).length = l.length := by
  induction l with
  | nil => rfl
  | cons a t ih =>
    obtain ⟨b, hb⟩ := Option.isSome_iff_exists.mp (h a (by simp))
    rw [List.filterMap_cons, hb, List.length_cons, List.length_cons,
      ih (fun x hx => h x (by simp [hx]))]

/-- C5: a result root whose sorted listing consists of valid run directories
plus one directory missing its summary artifact yields one manifest row per
valid directory, in sorted (lexicographic) name order, with the incomplete
directory skipped; with three valid directories the manifest has exactly
three data rows after the header. -/
theorem c5_rescan_three_valid (fs l1 l2 : List FsEntry) (bad : FsEntry)
    (hsort : sortedByName fs = l1 ++ bad :: l2)
    (hbadDir : bad.isDir = true) (hbadSummary : bad.summary = none)
    (hval : ∀ e ∈ l1 ++ l2, (processEntry e).isSome)
    (hlen : l1.length + l2.length = 3) :
    rescan fs = (l1 ++ l2).filterMap processEntry ∧
    (rescan fs).length = 3 ∧
    rescanManifest fs =
      csvLine rescanFieldnames ::
        ((l1 ++ l2).filterMap processEntry).map
          (fun r => csvLine (renderCells rescanFieldnames r)) := by
  have hbad : processEntry bad = none := by
    unfold processEntry
    rw [hbadDir, hbadSummary]
    cases bad.config <;> rfl
  have hmain : rescan fs = (l1 ++ l2).filterMap processEntry := by
    unfold rescan
    rw [hsort, List.filterMap_append, List.filterMap_append, List.filterMap_cons, hbad]
  refine ⟨hmain, ?_, ?_⟩
  · rw [hmain, filterMap_all_some_length _ _ hval, List.length_append, hlen]
  · unfold rescanManifest
    rw [hmain]

/-- Witness for C5: three valid directories and one missing its summary,
listed out of order; the manifest rows are those of `r1, r2, r4` in name
order, skipping `r3`. -/
theorem c5_rescan_three_valid_witness :
    rescan [fixEntry4, fixEntry3, fixEntry2, fixEntry1] =
      ([fixEntry1, fixEntry2] ++ [fixEntry4]).filterMap processEntry ∧
    (rescan [fixEntry4, fixEntry3, fixEntry2, fixEntry1]).length = 3 := by
  have h := c5_rescan_three_valid [fixEntry4, fixEntry3, fixEntry2, fixEntry1]
    [fixEntry1, fixEntry2] [fixEntry4] fixEntry3
    (by decide) rfl rfl (by decide) rfl
  exact ⟨h.1, h.2.1⟩

/-- C10: when zero directories survive the rescan the manifest is still
written, consisting of exactly the header row, and the process terminates
normally with exit status 0. -/
theorem c10_empty_rescan_manifest (fs : List FsEntry) (h : rescan fs = []) :
    rescanManifest fs = [csvLine rescanFieldnames] ∧ rescanExitCode fs = 0 := by
  unfold rescanManifest
  rw [h]
  exact ⟨rfl, rfl⟩

/-- Witness for C10 at the empty result root. -/
theorem c10_empty_rescan_manifest_witness :
    rescanManifest [] = [csvLine rescanFieldnames] ∧ rescanExitCode [] = 0 :=
  c10_empty_rescan_manifest [] rfl

/-! ## C6: engine failure isolation -/

/-- C6: a parameter set whose engine invocation exits with a non-zero status
produces no RunResult; no row for it appears in the results or the manifest,
and the orchestrator continues with every other parameter set — the outcome
equals that of the matrix with the failing set removed. -/
theorem c6_engine_failure_skipped (pre post : List ParameterSet) (p : ParameterSet)
    (eng : ParameterSet → EngineOutcome) (h : eng p = EngineOutcome.fail) :
    run_experiment p (eng p) = none ∧
    liveResults (pre ++ p :: post) eng = liveResults (pre ++ post) eng ∧
    liveManifest (liveResults (pre ++ p :: post) eng) =
      liveManifest (liveResults (pre ++ post) eng) := by
  have h1 : run_experiment p (eng p) = none := by rw [h]; rfl
  have h2 : liveResults (pre ++ p :: post) eng = liveResults (pre ++ post) eng := by
    unfold liveResults
    simp [List.filterMap_append, List.filterMap_cons, h1]
  exact ⟨h1, h2, by rw [h2]⟩

/-- Witness for C6: a two-set matrix whose engine always fails — the failing
head set contributes nothing and processing continues to the tail. -/
theorem c6_engine_failure_skipped_witness :
    run_experiment (mkParamSet "pingpong" 1 (256, 256)) EngineOutcome.fail = none ∧
    liveResults [mkParamSet "pingpong" 1 (256, 256), mkParamSet "rpc" 8 (1024, 1024)]
        (fun _ => EngineOutcome.fail) =
      liveResults [mkParamSet "rpc" 8 (1024, 1024)] (fun _ => EngineOutcome.fail) := by
  have h := c6_engine_failure_skipped [] [mkParamSet "rpc" 8 (1024, 1024)]
    (mkParamSet "pingpong" 1 (256, 256)) (fun _ => EngineOutcome.fail) rfl
  exact ⟨h.1, h.2.1⟩

/-! ## C7: column schema of the two modes -/

/-- C7 counterexample: rescan mode's header omits the `elapsed_s` column
altogether — the two modes do not write the same fixed column schema. -/
theorem c7_counterexample :
    "elapsed_s" ∈ liveFieldnames ∧ "elapsed_s" ∉ rescanFieldnames ∧
    liveFieldnames ≠ rescanFieldnames := by
  decide

/-- C7 (amended): the two headers agree except for `elapsed_s`, which live
mode schedules as its second-to-last column and rescan mode drops from the
header entirely rather than writing empty cells; the serializer itself does
default a scheduled column absent from a row to the empty cell, as rendering
a rescan row under the live schema shows. -/
theorem c7_amended_schema :
    rescanFieldnames = liveFieldnames.filter (fun f => f != "elapsed_s") ∧
    (∀ (rc : RunConfig) (st : Stat) (name : String),
      renderCells liveFieldnames (rescanRow rc st name) =
        (renderCells rescanFieldnames (rescanRow rc st name)).take 13 ++
          "" :: (renderCells rescanFieldnames (rescanRow rc st name)).drop 13) := by
  refine ⟨by decide, ?_⟩
  intro rc st name
  rfl

/-- Witness for the amended C7 at a concrete row. -/
theorem c7_amended_schema_witness :
    renderCells liveFieldnames
        (rescanRow ⟨"r1", "pingpong", 1, 256, 256, "10Gbps", "50us", 1500, "none"⟩
          ⟨1, 2, 3, 4⟩ "d1") =
      (renderCells rescanFieldnames
          (rescanRow ⟨"r1", "pingpong", 1, 256, 256, "10Gbps", "50us", 1500, "none"⟩
            ⟨1, 2, 3, 4⟩ "d1")).take 13 ++
        "" :: (renderCells rescanFieldnames
          (rescanRow ⟨"r1", "pingpong", 1, 256, 256, "10Gbps", "50us", 1500, "none"⟩
            ⟨1, 2, 3, 4⟩ "d1")).drop 13 :=
  c7_amended_schema.2 ⟨"r1", "pingpong", 1, 256, 256, "10Gbps", "50us", 1500, "none"⟩
    ⟨1, 2, 3, 4⟩ "d1"

/-! ## C8: exit status on total failure -/

/-- C8 counterexample: a rescan over a root whose only directory lacks its
summary artifact produces zero RunResults, yet the process terminates with
exit status 0 — not the non-zero status the claim asserts for both modes. -/
theorem c8_counterexample :
    rescan [⟨"r1", true,
      some (.ok ⟨"r1", "pingpong", 1, 256, 256, "10Gbps", "50us", 1500, "none"⟩),
      none⟩] = [] ∧
    rescanExitCode [⟨"r1", true,
      some (.ok ⟨"r1", "pingpong", 1, 256, 256, "10Gbps", "50us", 1500, "none"⟩),
      none⟩] = 0 := by
  exact ⟨rfl, rfl⟩

/-- C8 (amended): live mode exits 0 exactly when at least one run produced a
RunResult (and exits 1 on total failure); rescan mode always terminates with
exit status 0, even when zero directories produced a row. -/
theorem c8_amended_exit (ps : List ParameterSet) (eng : ParameterSet → EngineOutcome)
    (fs : List FsEntry) :
    (liveExitCode (liveResults ps eng) = 0 ↔ liveResults ps eng ≠ []) ∧
    rescanExitCode fs = 0 := by
  refine ⟨?_, rfl⟩
  cases h : liveResults ps eng with
  | nil => simp [liveExitCode]
  | cons r rs => simp [liveExitCode]

/-- Witness for the amended C8. -/
theorem c8_amended_exit_witness :
    (liveExitCode (liveResults [] (fun _ => EngineOutcome.fail)) = 0 ↔
      liveResults [] (fun _ => EngineOutcome.fail) ≠ []) ∧
    rescanExitCode [] = 0 :=
  c8_amended_exit [] (fun _ => EngineOutcome.fail) []

/-! ## C9: marker scraping of the engine stdout -/

/-- C9 counterexample: when the last line containing `Results written to:`
also contains `Run ID:`, the `elif` makes the code keep the earlier output
directory, not the one from that last line as the claim states. -/
theorem c9_counterexample :
    markerVal resMarker "Run ID: x Results written to: /b".data = "/b".data ∧
    (scanStdout ["Results written to: /a".data,
      "Run ID: x Results written to: /b".data]).2 = some "/a".data ∧
    some "/a".data ≠ some "/b".data := by
  refine ⟨rfl, rfl, by decide⟩

/-- After a marker line, lines not containing `Run ID:` leave the extracted
run id unchanged (a `Results written to:` line only overwrites the path). -/
theorem scan_keeps_runId (post : List (List Char))
    (hpost : ∀ m ∈ post, pyIn runIdMarker m = false)
    (st : Option (List Char) × Option (List Char)) :
    (List.foldl scanStep st post).1 = st.1 := by
  induction post generalizing st with
  | nil => rfl
  | cons m post' ih =>
    have hm : pyIn runIdMarker m = false := hpost m (by simp)
    have hstep : (scanStep st m).1 = st.1 := by
      unfold scanStep
      rw [hm]
      simp only [Bool.false_eq_true, if_false]
      cases hr : pyIn resMarker m with
      | false => simp
      | true => simp
    rw [List.foldl_cons, ih (fun x hx => hpost x (by simp [hx])), hstep]

/-- After a marker line, lines that do not take the `elif` branch — they
either lack `Results written to:` or contain `Run ID:` — leave the extracted
output directory unchanged. -/
theorem scan_keeps_outPath (post : List (List Char))
    (hpost : ∀ m ∈ post, pyIn resMarker m = false ∨ pyIn runIdMarker m = true)
    (st : Option (List Char) × Option (List Char)) :
    (List.foldl scanStep st post).2 = st.2 := by
  induction post generalizing st with
  | nil => rfl
  | cons m post' ih =>
    have hstep : (scanStep st m).2 = st.2 := by
      unfold scanStep
      rcases hpost m (by simp) with hm | hm
      · rw [hm]
        simp only [Bool.false_eq_true, if_false]
        cases hr : pyIn runIdMarker m with
        | false => simp
        | true => simp
      · rw [hm, if_pos rfl]
    rw [List.foldl_cons, ih (fun x hx => hpost x (by simp [hx])), hstep]

/-- C9 (amended): the run id is the parsed content of the last stdout line
containing `Run ID:`; the output directory is the parsed content of the last
line containing `Results written to:` but not `Run ID:` (a line with both
markers only updates the run id, because of the `elif`); and a `None` or
empty-after-trimming extracted value is falsy, so no RunResult is
produced. -/
theorem c9_amended_marker_scan (pre post : List (List Char)) (l : List Char) :
    (pyIn runIdMarker l = true →
      (∀ m ∈ post, pyIn runIdMarker m = false) →
      (scanStdout (pre ++ l :: post)).1 = some (markerVal runIdMarker l)) ∧
    (pyIn runIdMarker l = false → pyIn resMarker l = true →
      (∀ m ∈ post, pyIn resMarker m = false ∨ pyIn runIdMarker m = true) →
      (scanStdout (pre ++ l :: post)).2 = some (markerVal resMarker l)) ∧
    (∀ (p : ParameterSet) (stdoutLines : List (List Char))
      (summaryFile : Option (List Char)) (elapsed : String),
      (falsy (scanStdout stdoutLines).1 || falsy (scanStdout stdoutLines).2) = true →
      run_experiment p (EngineOutcome.ok stdoutLines summaryFile elapsed) = none) := by
  refine ⟨?_, ?_, ?_⟩
  · intro h hpost
    unfold scanStdout
    rw [List.foldl_append, List.foldl_cons, scan_keeps_runId post hpost]
    show (scanStep (List.foldl scanStep (none, none) pre) l).1 = _
    unfold scanStep
    rw [h, if_pos rfl]
  · intro h1 h2 hpost
    unfold scanStdout
    rw [List.foldl_append, List.foldl_cons, scan_keeps_outPath post hpost]
    show (scanStep (List.foldl scanStep (none, none) pre) l).2 = _
    unfold scanStep
    rw [h1]
    simp only [Bool.false_eq_true, if_false]
    rw [h2, if_pos rfl]
  · intro p sl sf el hf
    simp only [run_experiment]
    rw [hf, if_pos rfl]

/-- Witness for the amended C9: the later `Run ID:` line wins over the
earlier one, and a marker whose trailing content is empty after trimming
yields no RunResult. -/
theorem c9_amended_marker_scan_witness :
    (scanStdout (["Run ID: old".data] ++ "Run ID: r7".data :: ["done".data])).1 =
      some (markerVal runIdMarker "Run ID: r7".data) ∧
    run_experiment (mkParamSet "pingpong" 1 (256, 256))
      (EngineOutcome.ok ["Run ID: ".data] none "0.1") = none := by
  have h := c9_amended_marker_scan ["Run ID: old".data] ["done".data] "Run ID: r7".data
  exact ⟨h.1 (by decide) (by decide), h.2.2 _ ["Run ID: ".data] none "0.1" (by decide)⟩

end CS538
